import Mathlib

/-!
Verification development for the sra-drs-converter repository (src/main.py).

The Python `Processor` class is shallowly embedded: every network-touching
method becomes a Lean function that threads an explicit state `St` (the two
process-lifetime caches plus a log of the HTTP requests issued so far) and
consumes a transport oracle `Net` assigning an outcome to the n-th HTTP
request of the run.  Fallible JSON access (Python `d[k]` raising
`KeyError`/`TypeError`, `.endswith` on non-strings raising `AttributeError`)
is modelled with `Except String`.  `time.sleep` and logging are effect-free
in the model.  Simplifications, none of which a claim exercises: a `contents`
field that is present but not a JSON array is a shape error (Python would
raise at `len`/iteration for most non-sequence values); object ids and
`drs`/`drs-base` values are assumed JSON strings; a present-but-non-string
`name` field read through `.get("name", default)` at classification time is
modelled as `""`.
-/

namespace Processor

/-- Minimal JSON value model: only the shapes `main.py` reads. -/
inductive JVal where
  | str (s : String)
  | num (n : Int)
  | obj (fields : List (String × JVal))
  | arr (elems : List JVal)

/-- Association-list lookup with string keys, mirroring Python dict lookup. -/
def slookup {α : Type} : List (String × α) → String → Option α
  | [], _ => none
  | (k, v) :: rest, key => if key = k then some v else slookup rest key

/-- Python `d.get(k)` / `k in d` on a JSON object; `none` on non-objects. -/
def JVal.getField : JVal → String → Option JVal
  | JVal.obj fields, key => slookup fields key
  | _, _ => none

/-- Constructor arguments of `Processor.__init__` that the model needs
(`verbose` only gates logging; `retry_delay` only feeds `time.sleep`,
which is a no-op in the model but kept for fidelity). -/
structure Config where
  max_retries : Nat
  retry_delay : Nat
  flatten_structure : Bool
  etl : Bool

/-- Mutable state of one `Processor` instance, plus the log of URLs of the
HTTP GET requests issued so far (for counting network calls). -/
structure St where
  blob_status_cache : List (String × Bool)
  drs_contents_cache : List (String × JVal)
  reqLog : List String

/-- Outcome of one `requests.get` call: an HTTP status with a parsed JSON
body, or a `requests.exceptions.RequestException`. -/
inductive HttpOutcome where
  | status (code : Nat) (body : JVal)
  | exn

/-- Transport behavior: outcome of the n-th HTTP request of the run. -/
def Net : Type := Nat → HttpOutcome

def BASE_URL : String := "locate.be-md.ncbi.nlm.nih.gov"

def idxUrl (cfg : Config) (sra : String) : String :=
  "https://" ++ BASE_URL ++ "/idx/v1/" ++ sra ++ "?submitted=true&etl=" ++
    (if cfg.etl then "true" else "false")

def objectsExpandUrl (drs_id : String) : String :=
  "https://" ++ BASE_URL ++ "/ga4gh/drs/v1/objects/" ++ drs_id ++ "?expand=true"

def objectsUrl (blob_id : String) : String :=
  "https://" ++ BASE_URL ++ "/ga4gh/drs/v1/objects/" ++ blob_id

def blobUri (blob_id : String) : String :=
  "drs://" ++ BASE_URL ++ "/" ++ blob_id

/-- Record that one HTTP GET to `url` was issued. -/
def logReq (url : String) (st : St) : St :=
  { st with reqLog := st.reqLog ++ [url] }

/-- Record that `m` HTTP GETs to `url` were issued. -/
def pushN (url : String) (m : Nat) (st : St) : St :=
  { st with reqLog := st.reqLog ++ List.replicate m url }

/-- Loop body of `send_request_with_retry` (`for attempt in range(max_retries)`),
with the remaining attempt count as fuel. -/
def srwrGo (net : Net) (url : String) : Nat → St → Option JVal × St
  | 0, st => (none, st)
  | n + 1, st =>
    match net st.reqLog.length with
    | HttpOutcome.status c body =>
      if c = 200 then (some body, logReq url st)
      else if c = 502 ∨ c = 503 ∨ c = 504 then srwrGo net url n (logReq url st)
      else (none, logReq url st)
    | HttpOutcome.exn => srwrGo net url n (logReq url st)

/-- `Processor.send_request_with_retry` (main.py lines 33-57). -/
def send_request_with_retry (cfg : Config) (net : Net) (url : String) (st : St) :
    Option JVal × St :=
  srwrGo net url cfg.max_retries st

/-- Classification of an HTTP outcome that makes the retry loops continue. -/
def retryableB : HttpOutcome → Bool
  | HttpOutcome.status c _ => c == 502 || c == 503 || c == 504
  | HttpOutcome.exn => true

/-- Classification of an HTTP outcome that makes `send_request_with_retry`
stop immediately without retrying (any status other than 200/502/503/504). -/
def terminalB : HttpOutcome → Bool
  | HttpOutcome.status c _ => !(c == 200) && !(c == 502 || c == 503 || c == 504)
  | HttpOutcome.exn => false

/-- `Processor.get_drs_id_from_sra` (main.py lines 59-72). -/
def get_drs_id_from_sra (cfg : Config) (net : Net) (sra : String) (st : St) :
    Except String ((String × String) × St) :=
  match send_request_with_retry cfg net (idxUrl cfg sra) st with
  | (none, st1) => Except.ok (("", ""), st1)
  | (some r_json, st1) =>
    match r_json.getField "response" with
    | none => Except.error "KeyError: response"
    | some responses =>
      match responses.getField sra with
      | none => Except.error "KeyError: accession"
      | some entry =>
        match entry.getField "drs" with
        | some (JVal.str drs_id) =>
          match r_json.getField "drs-base" with
          | some (JVal.str base) => Except.ok ((drs_id, base ++ "/" ++ drs_id), st1)
          | _ => Except.error "KeyError: drs-base"
        | _ => Except.error "KeyError: drs"

/-- Insert a verdict into `blob_status_cache`. -/
def cacheBlob (blob_id : String) (v : Bool) (st : St) : St :=
  { st with blob_status_cache := (blob_id, v) :: st.blob_status_cache }

/-- Insert a descriptor into `drs_contents_cache`. -/
def cacheDrs (drs_id : String) (j : JVal) (st : St) : St :=
  { st with drs_contents_cache := (drs_id, j) :: st.drs_contents_cache }

/-- Probe loop of `is_blob_online` (main.py lines 186-207), entered on a
cache miss; remaining attempts as fuel.  On exhaustion the verdict `false`
is cached (line 205). -/
def ibolGo (net : Net) (blob_id : String) : Nat → St → Bool × St
  | 0, st => (false, cacheBlob blob_id false st)
  | n + 1, st =>
    match net st.reqLog.length with
    | HttpOutcome.status c _ =>
      if c = 200 then (true, cacheBlob blob_id true (logReq (objectsUrl blob_id) st))
      else if c = 502 ∨ c = 503 ∨ c = 504 then ibolGo net blob_id n (logReq (objectsUrl blob_id) st)
      else (false, cacheBlob blob_id false (logReq (objectsUrl blob_id) st))
    | HttpOutcome.exn => ibolGo net blob_id n (logReq (objectsUrl blob_id) st)

/-- `Processor.is_blob_online` (main.py lines 170-207): cache-first, then
the probe loop against the no-expand object-metadata URL. -/
def is_blob_online (cfg : Config) (net : Net) (blob_id : String) (st : St) :
    Bool × St :=
  match slookup st.blob_status_cache blob_id with
  | some v => (v, st)
  | none => ibolGo net blob_id cfg.max_retries st

/-- `Processor.determine_modified_name` (main.py lines 152-167).  Python
strings are modelled through their character lists: `endswith` is a list
suffix test, `[:-5]` is `take (length - 5)`, `in` is `contains`. -/
def determine_modified_name (original_name : String) : String :=
  if (String.toList ".lite").isSuffixOf original_name.toList then
    String.mk (original_name.toList.take (original_name.toList.length - 5)
      ++ String.toList ".sralite")
  else if original_name.toList.contains '.' = false then
    String.mk (original_name.toList ++ String.toList ".sra")
  else
    original_name

/-- Tuple returned by `get_drs_info` (main.py line 97), with fields named
after the locals of lines 91-95. -/
structure DrsInfo where
  is_bundle : Bool
  is_online : Bool
  num_offline : Nat
  name : String
  num_objects : Nat
deriving DecidableEq

/-- The "unresolved" tuple `(False, False, 0, "", 0)` of main.py line 89. -/
def unresolvedSentinel : DrsInfo := ⟨false, false, 0, "", 0⟩

/-- Python `response_json.get("name", "")` at main.py line 91 (a
present-but-non-string value is modelled as `""`; no claim exercises it). -/
def jname (j : JVal) : String :=
  match j.getField "name" with
  | some (JVal.str s) => s
  | _ => ""

/-- Line 94's bundle branch: `sum(not self.is_blob_online(content["id"]) for
content in contents)`, threading cache/log state left to right.  A child
without a string `"id"` is the uncaught `KeyError`/`TypeError` of
`content["id"]`. -/
def count_offline (cfg : Config) (net : Net) :
    List JVal → St → Except String (Nat × St)
  | [], st => Except.ok (0, st)
  | content :: rest, st =>
    match content.getField "id" with
    | some (JVal.str child_id) =>
      match is_blob_online cfg net child_id st with
      | (b, st1) =>
        match count_offline cfg net rest st1 with
        | Except.ok (k, st2) => Except.ok ((if b then 0 else 1) + k, st2)
        | Except.error e => Except.error e
    | some _ => Except.error "TypeError: content id is not a string"
    | none => Except.error "KeyError: id"

/-- Lines 91-97 of `get_drs_info`: classify a fetched/cached descriptor and
aggregate child online status. -/
def classify (cfg : Config) (net : Net) (drs_id : String) (response_json : JVal)
    (st : St) : Except String (DrsInfo × St) :=
  match response_json.getField "contents" with
  | some (JVal.arr contents) =>
    match count_offline cfg net contents st with
    | Except.ok (num_offline, st1) =>
      Except.ok (⟨true, decide (num_offline < contents.length), num_offline,
        jname response_json, contents.length⟩, st1)
    | Except.error e => Except.error e
  | some _ => Except.error "TypeError: contents is not a list"
  | none =>
    match is_blob_online cfg net drs_id st with
    | (b, st1) =>
      Except.ok (⟨false, decide ((if b then 0 else 1) < 1), if b then 0 else 1,
        jname response_json, 1⟩, st1)

/-- `Processor.get_drs_info` (main.py lines 75-97): cache-first descriptor
fetch, caching the parsed body before classification (line 86), returning
the unresolved tuple when the fetch fails (line 89). -/
def get_drs_info (cfg : Config) (net : Net) (drs_id : String) (st : St) :
    Except String (DrsInfo × St) :=
  match slookup st.drs_contents_cache drs_id with
  | some response_json => classify cfg net drs_id response_json st
  | none =>
    match send_request_with_retry cfg net (objectsExpandUrl drs_id) st with
    | (some response_json, st1) =>
      classify cfg net drs_id response_json (cacheDrs drs_id response_json st1)
    | (none, st1) => Except.ok (unresolvedSentinel, st1)

/-- Python `j.get("name", default)` followed by `determine_modified_name`'s
`.endswith` call: a present-but-non-string value raises `AttributeError`. -/
def jnameOr (j : JVal) (default : String) : Except String String :=
  match j.getField "name" with
  | some (JVal.str s) => Except.ok s
  | none => Except.ok default
  | some _ => Except.error "AttributeError: name is not a string"

/-- Bundle branch of `process_online_blobs` (main.py lines 122-136): walk
the direct children, skip sub-bundles, emit cached-online blobs. -/
def pobLoop (cfg : Config) (net : Net) (name : String) :
    List JVal → St → Except String (List (String × String × String) × St)
  | [], st => Except.ok ([], st)
  | content :: rest, st =>
    match content.getField "contents" with
    | some _ => pobLoop cfg net name rest st
    | none =>
      match content.getField "id" with
      | some (JVal.str blob_id) =>
        match is_blob_online cfg net blob_id st with
        | (b, st1) =>
          if b then
            match jnameOr content "" with
            | Except.ok original_name =>
              match pobLoop cfg net name rest st1 with
              | Except.ok (l, st2) =>
                Except.ok ((blob_id, blobUri blob_id,
                  if cfg.flatten_structure = false then
                    name ++ "/" ++ determine_modified_name original_name
                  else "DRS_Import/" ++ determine_modified_name original_name) :: l, st2)
              | Except.error e => Except.error e
            | Except.error e => Except.error e
          else pobLoop cfg net name rest st1
      | some _ => Except.error "TypeError: content id is not a string"
      | none => Except.error "KeyError: id"

/-- `Processor.process_online_blobs` (main.py lines 100-150). -/
def process_online_blobs (cfg : Config) (net : Net) (drs_id : String)
    (name : String) (st : St) :
    Except String (List (String × String × String) × St) :=
  match slookup st.drs_contents_cache drs_id with
  | none => Except.ok ([], st)
  | some response_json =>
    match response_json.getField "contents" with
    | some (JVal.arr contents) => pobLoop cfg net name contents st
    | some _ => Except.error "TypeError: contents is not a list"
    | none =>
      match response_json.getField "id" with
      | some (JVal.str blob_id) =>
        match is_blob_online cfg net blob_id st with
        | (b, st1) =>
          if b then
            match jnameOr response_json blob_id with
            | Except.ok original_name =>
              Except.ok ([(blob_id, blobUri blob_id,
                if cfg.flatten_structure then
                  "DRS_Import/" ++ determine_modified_name original_name
                else determine_modified_name original_name)], st1)
            | Except.error e => Except.error e
          else Except.ok ([], st1)
      | some _ => Except.error "TypeError: id is not a string"
      | none => Except.error "KeyError: id"

/-- One audit row of `all_data` (main.py lines 221-230): the seven DRS
columns plus the original row, modelled by its `Run` accession. -/
abbrev AuditRow : Type :=
  String × String × String × Bool × Bool × Nat × Nat × String

/-- One row of `hot_data` (lines 239-241): a blob triple plus the `Run`
accession of the originating input row. -/
abbrev HotRow : Type := (String × String × String) × String

/-- Loop body of `Processor.run` (main.py lines 213-243).  `obVar` models
the Python local `online_blobs`, which is assigned only inside
`if is_online:` (line 236) but read unconditionally at line 242; reading it
while unassigned is Python's `UnboundLocalError`. -/
def runRows (cfg : Config) (net : Net) :
    List String → Option (List (String × String × String)) →
    List AuditRow → List HotRow → St →
    Except String (List AuditRow × List HotRow × St)
  | [], _, all_data, hot_data, st => Except.ok (all_data, hot_data, st)
  | sra :: rest, obVar, all_data, hot_data, st =>
    match get_drs_id_from_sra cfg net sra st with
    | Except.error e => Except.error e
    | Except.ok ((drs_id, drs_uri), st1) =>
      match get_drs_info cfg net drs_id st1 with
      | Except.error e => Except.error e
      | Except.ok (info, st2) =>
        let all_data' := all_data ++
          [(drs_id, drs_uri, info.name, info.is_bundle, info.is_online,
            info.num_offline, info.num_objects, sra)]
        if info.is_online then
          match process_online_blobs cfg net drs_id info.name st2 with
          | Except.error e => Except.error e
          | Except.ok (online_blobs, st3) =>
            runRows cfg net rest (some online_blobs)
              (all_data') (hot_data ++ online_blobs.map (fun b => (b, sra))) st3
        else
          match obVar with
          | none => Except.error "UnboundLocalError: online_blobs"
          | some _ => runRows cfg net rest obVar all_data' hot_data st2

/-- `Processor.run` (main.py lines 209-272); rows are modelled by their
`Run` values, output DataFrames by the accumulated row lists. -/
def run (cfg : Config) (net : Net) (rows : List String) (st : St) :
    Except String (List AuditRow × List HotRow × St) :=
  runRows cfg net rows none [] [] st

/-- Processor defaults: `max_retries=3, retry_delay=5,
flatten_structure=False, etl=True`. -/
def cfgD : Config := ⟨3, 5, false, true⟩

/-- Empty run-start state: both caches empty, no requests issued. -/
def st0 : St := ⟨[], [], []⟩

lemma logReq_eq_pushN (url : String) (st : St) : logReq url st = pushN url 1 st := by
  cases st; simp [logReq, pushN]

lemma pushN_zero (url : String) (st : St) : pushN url 0 st = st := by
  cases st; simp [pushN]

lemma pushN_pushN (url : String) (a b : Nat) (st : St) :
    pushN url a (pushN url b st) = pushN url (b + a) st := by
  cases st; simp only [pushN, List.replicate_add, List.append_assoc]

lemma reqLog_length_pushN (url : String) (m : Nat) (st : St) :
    (pushN url m st).reqLog.length = st.reqLog.length + m := by
  simp [pushN]

lemma reqLog_length_logReq (url : String) (st : St) :
    (logReq url st).reqLog.length = st.reqLog.length + 1 := by
  simp [logReq]

lemma retryableB_status (c : Nat) (body : JVal)
    (h : retryableB (HttpOutcome.status c body) = true) :
    c = 502 ∨ c = 503 ∨ c = 504 := by
  simp only [retryableB, Bool.or_eq_true, beq_iff_eq] at h
  tauto

/-- If the outcome at relative attempt `k` is HTTP 200 and all earlier
outcomes are retryable, the retry loop returns that body after exactly
`k + 1` requests. -/
lemma srwrGo_ok_at : ∀ (k n : Nat) (net : Net) (url : String) (st : St) (j : JVal),
    k < n →
    (∀ i, i < k → retryableB (net (st.reqLog.length + i)) = true) →
    net (st.reqLog.length + k) = HttpOutcome.status 200 j →
    srwrGo net url n st = (some j, pushN url (k + 1) st) := by
  intro k
  induction k with
  | zero =>
    intro n net url st j hkn hret h200
    match n, hkn with
    | n + 1, _ =>
      rw [Nat.add_zero] at h200
      simp [srwrGo, h200, logReq_eq_pushN]
  | succ k ih =>
    intro n net url st j hkn hret h200
    match n, hkn with
    | n + 1, _ =>
      have hr0 := hret 0 (by omega)
      rw [Nat.add_zero] at hr0
      have hshift : ∀ i, i < k → retryableB (net ((logReq url st).reqLog.length + i)) = true := by
        intro i hi
        rw [reqLog_length_logReq, show st.reqLog.length + 1 + i = st.reqLog.length + (i + 1) from by omega]
        exact hret (i + 1) (by omega)
      have h200' : net ((logReq url st).reqLog.length + k) = HttpOutcome.status 200 j := by
        rw [reqLog_length_logReq, show st.reqLog.length + 1 + k = st.reqLog.length + (k + 1) from by omega]
        exact h200
      have hrec : srwrGo net url n (logReq url st) = (some j, pushN url (k + 1) (logReq url st)) :=
        ih n net url (logReq url st) j (by omega) hshift h200'
      have hfin : pushN url (k + 1) (logReq url st) = pushN url (k + 1 + 1) st := by
        rw [logReq_eq_pushN, pushN_pushN, show 1 + (k + 1) = k + 1 + 1 from by omega]
      cases ho : net st.reqLog.length with
      | exn =>
        simp only [srwrGo, ho]
        rw [hrec, hfin]
      | status c body =>
        rw [ho] at hr0
        have hbusy := retryableB_status c body hr0
        have hc200 : ¬ c = 200 := by rcases hbusy with h | h | h <;> omega
        simp only [srwrGo, ho, if_neg hc200, if_pos hbusy]
        rw [hrec, hfin]

/-- If the outcome at relative attempt `k` is a terminal (non-200,
non-retryable) status and all earlier outcomes are retryable, the retry
loop stops and returns `none` after exactly `k + 1` requests. -/
lemma srwrGo_terminal_at : ∀ (k n : Nat) (net : Net) (url : String) (st : St),
    k < n →
    (∀ i, i < k → retryableB (net (st.reqLog.length + i)) = true) →
    terminalB (net (st.reqLog.length + k)) = true →
    srwrGo net url n st = (none, pushN url (k + 1) st) := by
  intro k
  induction k with
  | zero =>
    intro n net url st hkn hret hterm
    match n, hkn with
    | n + 1, _ =>
      rw [Nat.add_zero] at hterm
      cases ho : net st.reqLog.length with
      | exn => rw [ho] at hterm; simp [terminalB] at hterm
      | status c body =>
        rw [ho] at hterm
        simp only [terminalB, Bool.and_eq_true, Bool.not_eq_true'] at hterm
        obtain ⟨hne200, hnb⟩ := hterm
        have hc200 : ¬ c = 200 := by simpa using hne200
        have hbusy : ¬ (c = 502 ∨ c = 503 ∨ c = 504) := by
          simp only [Bool.or_eq_false_iff, beq_eq_false_iff_ne] at hnb
          rcases hnb with ⟨⟨h1, h2⟩, h3⟩
          intro h; rcases h with h | h | h <;> simp_all
        simp only [srwrGo, ho, if_neg hc200, if_neg hbusy, logReq_eq_pushN]
  | succ k ih =>
    intro n net url st hkn hret hterm
    match n, hkn with
    | n + 1, _ =>
      have hr0 := hret 0 (by omega)
      rw [Nat.add_zero] at hr0
      have hshift : ∀ i, i < k → retryableB (net ((logReq url st).reqLog.length + i)) = true := by
        intro i hi
        rw [reqLog_length_logReq, show st.reqLog.length + 1 + i = st.reqLog.length + (i + 1) from by omega]
        exact hret (i + 1) (by omega)
      have hterm' : terminalB (net ((logReq url st).reqLog.length + k)) = true := by
        rw [reqLog_length_logReq, show st.reqLog.length + 1 + k = st.reqLog.length + (k + 1) from by omega]
        exact hterm
      have hrec : srwrGo net url n (logReq url st) = (none, pushN url (k + 1) (logReq url st)) :=
        ih n net url (logReq url st) (by omega) hshift hterm'
      have hfin : pushN url (k + 1) (logReq url st) = pushN url (k + 1 + 1) st := by
        rw [logReq_eq_pushN, pushN_pushN, show 1 + (k + 1) = k + 1 + 1 from by omega]
      cases ho : net st.reqLog.length with
      | exn =>
        simp only [srwrGo, ho]
        rw [hrec, hfin]
      | status c body =>
        rw [ho] at hr0
        have hbusy := retryableB_status c body hr0
        have hc200 : ¬ c = 200 := by rcases hbusy with h | h | h <;> omega
        simp only [srwrGo, ho, if_neg hc200, if_pos hbusy]
        rw [hrec, hfin]

/-- If every outcome within the budget is retryable, the loop exhausts all
`n` attempts and returns `none`. -/
lemma srwrGo_exhaust : ∀ (n : Nat) (net : Net) (url : String) (st : St),
    (∀ k, k < n → retryableB (net (st.reqLog.length + k)) = true) →
    srwrGo net url n st = (none, pushN url n st) := by
  intro n
  induction n with
  | zero => intro net url st _; simp [srwrGo, pushN_zero]
  | succ n ih =>
    intro net url st hret
    have hr0 := hret 0 (by omega)
    rw [Nat.add_zero] at hr0
    have hshift : ∀ k, k < n → retryableB (net ((logReq url st).reqLog.length + k)) = true := by
      intro k hk
      rw [reqLog_length_logReq, show st.reqLog.length + 1 + k = st.reqLog.length + (k + 1) from by omega]
      exact hret (k + 1) (by omega)
    have hrec := ih net url (logReq url st) hshift
    have hfin : pushN url n (logReq url st) = pushN url (n + 1) st := by
      rw [logReq_eq_pushN, pushN_pushN, show 1 + n = n + 1 from by omega]
    cases ho : net st.reqLog.length with
    | exn =>
      simp only [srwrGo, ho]
      rw [hrec, hfin]
    | status c body =>
      rw [ho] at hr0
      have hbusy := retryableB_status c body hr0
      have hc200 : ¬ c = 200 := by rcases hbusy with h | h | h <;> omega
      simp only [srwrGo, ho, if_neg hc200, if_pos hbusy]
      rw [hrec, hfin]

/-- The probe loop performs exactly one cache insertion, of its final
verdict, and at most `n` requests, all to the no-expand metadata URL. -/
lemma ibolGo_shape : ∀ (n : Nat) (net : Net) (i : String) (st : St),
    ∃ v m, m ≤ n ∧ ibolGo net i n st = (v, cacheBlob i v (pushN (objectsUrl i) m st)) := by
  intro n
  induction n with
  | zero =>
    intro net i st
    exact ⟨false, 0, Nat.le_refl 0, by simp [ibolGo, pushN_zero]⟩
  | succ n ih =>
    intro net i st
    cases ho : net st.reqLog.length with
    | exn =>
      obtain ⟨v, m, hm, heq⟩ := ih net i (logReq (objectsUrl i) st)
      refine ⟨v, m + 1, by omega, ?_⟩
      simp only [ibolGo, ho]
      rw [heq, logReq_eq_pushN, pushN_pushN,
        show 1 + m = m + 1 from by omega]
    | status c body =>
      by_cases h200 : c = 200
      · refine ⟨true, 1, by omega, ?_⟩
        simp only [ibolGo, ho, if_pos h200, logReq_eq_pushN]
      · by_cases hbusy : c = 502 ∨ c = 503 ∨ c = 504
        · obtain ⟨v, m, hm, heq⟩ := ih net i (logReq (objectsUrl i) st)
          refine ⟨v, m + 1, by omega, ?_⟩
          simp only [ibolGo, ho, if_neg h200, if_pos hbusy]
          rw [heq, logReq_eq_pushN, pushN_pushN,
            show 1 + m = m + 1 from by omega]
        · refine ⟨false, 1, by omega, ?_⟩
          simp only [ibolGo, ho, if_neg h200, if_neg hbusy, logReq_eq_pushN]

/-- The probe loop of `is_blob_online` interprets exactly the outcome
`send_request_with_retry` would have on the same URL, issuing the same
requests: `true` iff the transport call would return a response. -/
lemma ibolGo_eq_srwrGo : ∀ (n : Nat) (net : Net) (i : String) (st : St),
    (ibolGo net i n st).1 = ((srwrGo net (objectsUrl i) n st).1).isSome
    ∧ (ibolGo net i n st).2.reqLog = (srwrGo net (objectsUrl i) n st).2.reqLog := by
  intro n
  induction n with
  | zero =>
    intro net i st
    constructor <;> simp [ibolGo, srwrGo, cacheBlob]
  | succ n ih =>
    intro net i st
    cases ho : net st.reqLog.length with
    | exn => simpa only [ibolGo, srwrGo, ho] using ih net i (logReq (objectsUrl i) st)
    | status c body =>
      simp only [ibolGo, srwrGo, ho]
      by_cases h200 : c = 200
      · constructor <;> simp [if_pos h200, cacheBlob]
      · by_cases hbusy : c = 502 ∨ c = 503 ∨ c = 504
        · simpa only [if_neg h200, if_pos hbusy] using ih net i (logReq (objectsUrl i) st)
        · constructor <;> simp [if_neg h200, if_neg hbusy, cacheBlob]

/-- After any call to `is_blob_online`, its verdict (whatever it is) sits
in the blob cache, a repeated call returns the same verdict and the same
state without further requests, existing cache entries survive, and the
descriptor cache is untouched. -/
lemma is_blob_online_rerun (cfg : Config) (net : Net) (i : String) (st : St)
    (v : Bool) (st' : St) (h : is_blob_online cfg net i st = (v, st')) :
    slookup st'.blob_status_cache i = some v
    ∧ is_blob_online cfg net i st' = (v, st')
    ∧ st'.drs_contents_cache = st.drs_contents_cache
    ∧ ∀ x w, slookup st.blob_status_cache x = some w →
        slookup st'.blob_status_cache x = some w := by
  cases hc : slookup st.blob_status_cache i with
  | some w =>
    simp only [is_blob_online, hc, Prod.mk.injEq] at h
    obtain ⟨hv, hst⟩ := h
    subst hv; subst hst
    exact ⟨hc, by simp [is_blob_online, hc], rfl, fun x w hx => hx⟩
  | none =>
    simp only [is_blob_online, hc] at h
    obtain ⟨v0, m, _, heq⟩ := ibolGo_shape cfg.max_retries net i st
    rw [heq, Prod.mk.injEq] at h
    obtain ⟨hv, hst⟩ := h
    subst hv; subst hst
    refine ⟨by simp [cacheBlob, slookup], ?_, by simp [cacheBlob, pushN], ?_⟩
    · have hl : slookup (cacheBlob i v0 (pushN (objectsUrl i) m st)).blob_status_cache i
          = some v0 := by simp [cacheBlob, slookup]
      simp [is_blob_online, hl]
    · intro x w hx
      by_cases hxi : x = i
      · subst hxi; rw [hx] at hc; cases hc
      · simpa [cacheBlob, pushN, slookup, hxi] using hx

/-- The aggregated offline count never exceeds the child count. -/
lemma count_offline_le : ∀ (cs : List JVal) (cfg : Config) (net : Net)
    (st : St) (k : Nat) (st' : St),
    count_offline cfg net cs st = Except.ok (k, st') → k ≤ cs.length := by
  intro cs
  induction cs with
  | nil =>
    intro cfg net st k st' h
    simp only [count_offline, Except.ok.injEq, Prod.mk.injEq] at h
    omega
  | cons c rest ih =>
    intro cfg net st k st' h
    cases hid : c.getField "id" with
    | none => simp [count_offline, hid] at h
    | some jv =>
      cases jv with
      | str i =>
        rcases hb : is_blob_online cfg net i st with ⟨b, st1⟩
        simp only [count_offline, hid, hb] at h
        cases hrec : count_offline cfg net rest st1 with
        | error e => rw [hrec] at h; cases h
        | ok p =>
          rcases p with ⟨k1, st2⟩
          rw [hrec] at h
          simp only [Except.ok.injEq, Prod.mk.injEq] at h
          have hk1 := ih cfg net st1 k1 st2 hrec
          have hsum : (if b = true then 0 else 1) + k1 = k := h.1
          simp only [List.length_cons]
          cases b <;> simp at hsum <;> omega
      | num n => simp [count_offline, hid] at h
      | obj f => simp [count_offline, hid] at h
      | arr l => simp [count_offline, hid] at h

/-- After one aggregation pass every probed verdict is cached, so
repeating the pass from its final state returns the same count and the
same state with no further requests; existing blob-cache entries survive
and the descriptor cache is untouched. -/
lemma count_offline_rerun : ∀ (cs : List JVal) (cfg : Config) (net : Net)
    (st : St) (k : Nat) (st' : St),
    count_offline cfg net cs st = Except.ok (k, st') →
    (∀ x w, slookup st.blob_status_cache x = some w →
        slookup st'.blob_status_cache x = some w)
    ∧ st'.drs_contents_cache = st.drs_contents_cache
    ∧ count_offline cfg net cs st' = Except.ok (k, st') := by
  intro cs
  induction cs with
  | nil =>
    intro cfg net st k st' h
    simp only [count_offline, Except.ok.injEq, Prod.mk.injEq] at h
    obtain ⟨hk, hst⟩ := h
    subst hst
    exact ⟨fun x w hx => hx, rfl, by simp [count_offline, hk]⟩
  | cons c rest ih =>
    intro cfg net st k st' h
    cases hid : c.getField "id" with
    | none => simp [count_offline, hid] at h
    | some jv =>
      cases jv with
      | str i =>
        rcases hb : is_blob_online cfg net i st with ⟨b, st1⟩
        simp only [count_offline, hid, hb] at h
        cases hrec : count_offline cfg net rest st1 with
        | error e => rw [hrec] at h; cases h
        | ok p =>
          rcases p with ⟨k1, st2⟩
          rw [hrec] at h
          simp only [Except.ok.injEq, Prod.mk.injEq] at h
          obtain ⟨hk, hst⟩ := h
          subst hst
          obtain ⟨hcache1, hrerun1, hdrs1, hmono1⟩ :=
            is_blob_online_rerun cfg net i st b st1 hb
          obtain ⟨hmono2, hdrs2, hrerun2⟩ := ih cfg net st1 k1 st2 hrec
          refine ⟨fun x w hx => hmono2 x w (hmono1 x w hx), hdrs2.trans hdrs1, ?_⟩
          have hb' : is_blob_online cfg net i st2 = (b, st2) := by
            have hl : slookup st2.blob_status_cache i = some b := hmono2 i b hcache1
            simp [is_blob_online, hl]
          simp only [count_offline, hid, hb', hrerun2, hk]
      | num n => simp [count_offline, hid] at h
      | obj f => simp [count_offline, hid] at h
      | arr l => simp [count_offline, hid] at h

/-- When every child id already has a cached verdict `v i`, the
aggregation pass issues no requests, leaves the state unchanged, and
counts exactly the children whose cached verdict is offline. -/
lemma count_offline_cached : ∀ (cs : List JVal) (ids : List String)
    (v : String → Bool) (cfg : Config) (net : Net) (st : St),
    cs.map (fun c => c.getField "id") = ids.map (fun i => some (JVal.str i)) →
    (∀ i ∈ ids, slookup st.blob_status_cache i = some (v i)) →
    count_offline cfg net cs st = Except.ok (ids.countP (fun i => !(v i)), st) := by
  intro cs
  induction cs with
  | nil =>
    intro ids v cfg net st hmap _
    have hids : ids = [] := by
      cases ids with
      | nil => rfl
      | cons i rest => simp at hmap
    subst hids
    simp [count_offline]
  | cons c rest ih =>
    intro ids v cfg net st hmap hcached
    cases ids with
    | nil => simp at hmap
    | cons i ids' =>
      simp only [List.map_cons, List.cons.injEq] at hmap
      obtain ⟨hid, hmap'⟩ := hmap
      have hhit : slookup st.blob_status_cache i = some (v i) :=
        hcached i (by simp)
      have hb : is_blob_online cfg net i st = (v i, st) := by
        simp [is_blob_online, hhit]
      have hrec := ih ids' v cfg net st hmap'
        (fun x hx => hcached x (by simp [hx]))
      simp only [count_offline, hid, hb, hrec, List.countP_cons]
      congr 1
      cases hvi : v i
      · simp [hvi]
        omega
      · simp [hvi]

/-- Structural invariant of the classification step: the offline count is
bounded by the object count, and a blob always counts as one object. -/
lemma classify_inv (cfg : Config) (net : Net) (d : String) (j : JVal) (st : St)
    (r : DrsInfo) (st' : St) (h : classify cfg net d j st = Except.ok (r, st')) :
    r.num_offline ≤ r.num_objects ∧ (r.is_bundle = false → r.num_objects = 1) := by
  cases hc : j.getField "contents" with
  | none =>
    rcases hb : is_blob_online cfg net d st with ⟨b, st1⟩
    simp only [classify, hc, hb, Except.ok.injEq, Prod.mk.injEq] at h
    obtain ⟨hr, _⟩ := h
    subst hr
    constructor
    · cases b <;> simp
    · intro _; rfl
  | some cv =>
    cases cv with
    | arr cs =>
      cases hcnt : count_offline cfg net cs st with
      | error e => simp [classify, hc, hcnt] at h
      | ok p =>
        rcases p with ⟨k, st1⟩
        simp only [classify, hc, hcnt, Except.ok.injEq, Prod.mk.injEq] at h
        obtain ⟨hr, _⟩ := h
        subst hr
        refine ⟨count_offline_le cs cfg net st k st1 hcnt, ?_⟩
        intro hfalse; cases hfalse
    | str s => simp [classify, hc] at h
    | num n => simp [classify, hc] at h
    | obj f => simp [classify, hc] at h

/-- Repeating a successful classification from its own final state gives
the same result and the same state (all verdicts are cached); blob-cache
entries survive and the descriptor cache is untouched. -/
lemma classify_rerun (cfg : Config) (net : Net) (d : String) (j : JVal) (st : St)
    (r : DrsInfo) (st' : St) (h : classify cfg net d j st = Except.ok (r, st')) :
    (∀ x w, slookup st.blob_status_cache x = some w →
        slookup st'.blob_status_cache x = some w)
    ∧ st'.drs_contents_cache = st.drs_contents_cache
    ∧ classify cfg net d j st' = Except.ok (r, st') := by
  cases hc : j.getField "contents" with
  | none =>
    rcases hb : is_blob_online cfg net d st with ⟨b, st1⟩
    simp only [classify, hc, hb, Except.ok.injEq, Prod.mk.injEq] at h
    obtain ⟨hr, hst⟩ := h
    subst hr; subst hst
    obtain ⟨_, hrerun, hdrs, hmono⟩ := is_blob_online_rerun cfg net d st b st1 hb
    exact ⟨hmono, hdrs, by simp only [classify, hc, hrerun]⟩
  | some cv =>
    cases cv with
    | arr cs =>
      cases hcnt : count_offline cfg net cs st with
      | error e => simp [classify, hc, hcnt] at h
      | ok p =>
        rcases p with ⟨k, st1⟩
        simp only [classify, hc, hcnt, Except.ok.injEq, Prod.mk.injEq] at h
        obtain ⟨hr, hst⟩ := h
        subst hr; subst hst
        obtain ⟨hmono, hdrs, hrerun⟩ := count_offline_rerun cs cfg net st k st1 hcnt
        exact ⟨hmono, hdrs, by simp only [classify, hc, hrerun]⟩
    | str s => simp [classify, hc] at h
    | num n => simp [classify, hc] at h
    | obj f => simp [classify, hc] at h

/-- When the object cache holds a descriptor and every blob id the
extractor's bundle walk would probe is already cached (with a readable
name field), the walk succeeds without touching the state at all. -/
lemma pobLoop_cached : ∀ (cs : List JVal) (cfg : Config) (net : Net)
    (name : String) (st : St),
    (∀ c ∈ cs, c.getField "contents" = none →
      ∃ i, c.getField "id" = some (JVal.str i)
        ∧ (∃ v, slookup st.blob_status_cache i = some v)
        ∧ (c.getField "name" = none ∨ ∃ s, c.getField "name" = some (JVal.str s))) →
    ∃ l, pobLoop cfg net name cs st = Except.ok (l, st) := by
  intro cs
  induction cs with
  | nil => intro cfg net name st _; exact ⟨[], rfl⟩
  | cons c rest ih =>
    intro cfg net name st hcs
    obtain ⟨l, hrest⟩ := ih cfg net name st (fun x hx => hcs x (by simp [hx]))
    cases hcc : c.getField "contents" with
    | some cv => exact ⟨l, by simp only [pobLoop, hcc, hrest]⟩
    | none =>
      obtain ⟨i, hid, ⟨v, hv⟩, hname⟩ := hcs c (by simp) hcc
      have hb : is_blob_online cfg net i st = (v, st) := by
        simp [is_blob_online, hv]
      cases hvv : v with
      | false =>
        refine ⟨l, ?_⟩
        rw [hvv] at hb
        simp only [pobLoop, hcc, hid, hb, if_neg (by simp : ¬ (false = true)), hrest]
      | true =>
        rw [hvv] at hb
        rcases hname with hn | ⟨s, hn⟩
        · refine ⟨(i, blobUri i,
            if cfg.flatten_structure = false then
              name ++ "/" ++ determine_modified_name ""
            else "DRS_Import/" ++ determine_modified_name "") :: l, ?_⟩
          simp only [pobLoop, hcc, hid, hb, if_pos rfl, jnameOr, hn, hrest, if_true]
        · refine ⟨(i, blobUri i,
            if cfg.flatten_structure = false then
              name ++ "/" ++ determine_modified_name s
            else "DRS_Import/" ++ determine_modified_name s) :: l, ?_⟩
          simp only [pobLoop, hcc, hid, hb, if_pos rfl, jnameOr, hn, hrest, if_true]

/-- C4: `send_request_with_retry` returns the response immediately on HTTP
200; on 502/503/504 or a network-level exception it retries up to the
configured maximum attempt count and returns null after exhaustion (so a
persistent 503 under `max_retries` issues exactly `max_retries` requests);
any other HTTP status stops immediately without retrying and returns
null. -/
theorem send_request_with_retry_contract (cfg : Config) (net : Net)
    (url : String) (st : St) :
    (∀ k j, k < cfg.max_retries →
      (∀ i, i < k → retryableB (net (st.reqLog.length + i)) = true) →
      net (st.reqLog.length + k) = HttpOutcome.status 200 j →
      send_request_with_retry cfg net url st = (some j, pushN url (k + 1) st))
    ∧ (∀ k, k < cfg.max_retries →
      (∀ i, i < k → retryableB (net (st.reqLog.length + i)) = true) →
      terminalB (net (st.reqLog.length + k)) = true →
      send_request_with_retry cfg net url st = (none, pushN url (k + 1) st))
    ∧ ((∀ k, k < cfg.max_retries → retryableB (net (st.reqLog.length + k)) = true) →
      send_request_with_retry cfg net url st = (none, pushN url cfg.max_retries st)) := by
  refine ⟨?_, ?_, ?_⟩
  · intro k j hk hret h200
    exact srwrGo_ok_at k cfg.max_retries net url st j hk hret h200
  · intro k hk hret hterm
    exact srwrGo_terminal_at k cfg.max_retries net url st hk hret hterm
  · intro hret
    exact srwrGo_exhaust cfg.max_retries net url st hret

/-- Witness for C4: with `max_retries = 3` and a persistent 503, exactly 3
requests are issued and the call returns null. -/
theorem send_request_with_retry_contract_witness :
    send_request_with_retry cfgD (fun _ => HttpOutcome.status 503 (JVal.obj [])) "u" st0
      = (none, pushN "u" 3 st0)
    ∧ (pushN "u" 3 st0).reqLog.length = 3 :=
  ⟨(send_request_with_retry_contract cfgD
      (fun _ => HttpOutcome.status 503 (JVal.obj [])) "u" st0).2.2 (fun _ _ => rfl),
    rfl⟩

/-- C8: on a blob-cache miss, `is_blob_online` is equivalent to calling
`send_request_with_retry` on the no-expand object-metadata URL: it returns
`true` iff that transport call would return a non-null response, it issues
the very same request sequence, and it performs at most `max_retries`
requests. -/
theorem is_blob_online_refines_transport (cfg : Config) (net : Net)
    (blob_id : String) (st : St)
    (hmiss : slookup st.blob_status_cache blob_id = none) :
    (is_blob_online cfg net blob_id st).1
        = ((send_request_with_retry cfg net (objectsUrl blob_id) st).1).isSome
    ∧ (is_blob_online cfg net blob_id st).2.reqLog
        = (send_request_with_retry cfg net (objectsUrl blob_id) st).2.reqLog
    ∧ (is_blob_online cfg net blob_id st).2.reqLog.length
        ≤ st.reqLog.length + cfg.max_retries := by
  have h1 : is_blob_online cfg net blob_id st = ibolGo net blob_id cfg.max_retries st := by
    simp [is_blob_online, hmiss]
  have he := ibolGo_eq_srwrGo cfg.max_retries net blob_id st
  obtain ⟨v, m, hm, heq⟩ := ibolGo_shape cfg.max_retries net blob_id st
  refine ⟨?_, ?_, ?_⟩
  · rw [h1, send_request_with_retry]
    exact he.1
  · rw [h1, send_request_with_retry]
    exact he.2
  · rw [h1, heq]
    simp only [cacheBlob, pushN, List.length_append, List.length_replicate]
    omega

/-- Witness for C8 at a concrete blob id, empty cache and an immediately
successful probe. -/
theorem is_blob_online_refines_transport_witness :
    (is_blob_online cfgD (fun _ => HttpOutcome.status 200 (JVal.obj [])) "b" st0).1
        = ((send_request_with_retry cfgD (fun _ => HttpOutcome.status 200 (JVal.obj []))
            (objectsUrl "b") st0).1).isSome
    ∧ (is_blob_online cfgD (fun _ => HttpOutcome.status 200 (JVal.obj [])) "b" st0).2.reqLog
        = (send_request_with_retry cfgD (fun _ => HttpOutcome.status 200 (JVal.obj []))
            (objectsUrl "b") st0).2.reqLog
    ∧ (is_blob_online cfgD (fun _ => HttpOutcome.status 200 (JVal.obj [])) "b" st0).2.reqLog.length
        ≤ st0.reqLog.length + cfgD.max_retries :=
  is_blob_online_refines_transport cfgD (fun _ => HttpOutcome.status 200 (JVal.obj []))
    "b" st0 rfl

/-- C9: the derived name of a display name `s` is: if `s` ends with
`.lite`, `s` with that suffix replaced by `.sralite`; else if `s` contains
no `.` at all, `s` with `.sra` appended; otherwise `s` unchanged — with the
three examples of the spec. -/
theorem determine_modified_name_rule (s : String) :
    ((String.toList ".lite").isSuffixOf s.toList = true →
      ∃ p, s.toList = p ++ String.toList ".lite"
        ∧ determine_modified_name s = String.mk (p ++ String.toList ".sralite"))
    ∧ ((String.toList ".lite").isSuffixOf s.toList = false →
        s.toList.contains '.' = false →
        determine_modified_name s = s ++ ".sra")
    ∧ ((String.toList ".lite").isSuffixOf s.toList = false →
        s.toList.contains '.' = true →
        determine_modified_name s = s)
    ∧ determine_modified_name "foo.lite" = "foo.sralite"
    ∧ determine_modified_name "bar" = "bar.sra"
    ∧ determine_modified_name "baz.txt" = "baz.txt" := by
  refine ⟨?_, ?_, ?_, by decide, by decide, by decide⟩
  · intro h
    have hsuf : String.toList ".lite" <:+ s.toList :=
      (List.isSuffixOf_iff_suffix).mp h
    obtain ⟨p, hp⟩ := hsuf
    refine ⟨p, hp.symm, ?_⟩
    have h5 : (p ++ String.toList ".lite").length - 5 = p.length := by
      simp
    have hmain : determine_modified_name s
        = String.mk (s.toList.take (s.toList.length - 5) ++ String.toList ".sralite") := by
      simp only [determine_modified_name, h, if_true]
    rw [hmain, ← hp, h5, List.take_left]
  · intro h1 h2
    simp only [determine_modified_name, h1, Bool.false_eq_true, if_false, h2, if_true]
    rfl
  · intro h1 h2
    simp only [determine_modified_name, h1, Bool.false_eq_true, if_false, h2,
      Bool.true_eq_false]

/-- Witness for C9 at `"x.lite"`. -/
theorem determine_modified_name_rule_witness :
    ∃ p, (String.toList "x.lite") = p ++ String.toList ".lite"
      ∧ determine_modified_name "x.lite" = String.mk (p ++ String.toList ".sralite") :=
  (determine_modified_name_rule "x.lite").1 (by decide)

/-- Transport that answers every request with HTTP 200 and a blob
descriptor whose display name is `"n"`. -/
def netBlobOk : Net := fun _ => HttpOutcome.status 200 (JVal.obj [("name", JVal.str "n")])

/-- Counterexample to C2: with both caches empty, a transport behavior
that returns HTTP 200 for the empty-id metadata URL (and for the
subsequent probe) makes `get_drs_info ""` return a normal classification,
not the unresolved sentinel — the code has no special case for the empty
string. -/
theorem get_drs_info_empty_id_cex :
    (get_drs_info cfgD netBlobOk "" st0).map (fun p => p.1)
      = Except.ok (⟨false, true, 0, "n", 1⟩ : DrsInfo)
    ∧ (⟨false, true, 0, "n", 1⟩ : DrsInfo) ≠ unresolvedSentinel :=
  ⟨rfl, by decide⟩

/-- C2 (amended): `get_drs_info ""` returns the unresolved sentinel
exactly as for any other id — when the id is absent from the Object Cache
and the metadata fetch returns null. -/
theorem get_drs_info_empty_id_unresolved (cfg : Config) (net : Net)
    (st st1 : St)
    (hmiss : slookup st.drs_contents_cache "" = none)
    (hfail : send_request_with_retry cfg net (objectsExpandUrl "") st = (none, st1)) :
    get_drs_info cfg net "" st = Except.ok (unresolvedSentinel, st1) := by
  simp only [get_drs_info, hmiss, hfail]

/-- Witness for the amended C2: empty caches and a transport that always
raises make `get_drs_info ""` return the sentinel. -/
theorem get_drs_info_empty_id_unresolved_witness :
    get_drs_info cfgD (fun _ => HttpOutcome.exn) "" st0
      = Except.ok (unresolvedSentinel, pushN (objectsExpandUrl "") 3 st0) :=
  get_drs_info_empty_id_unresolved cfgD (fun _ => HttpOutcome.exn) st0
    (pushN (objectsExpandUrl "") 3 st0) rfl rfl

/-- Transport that answers every request with HTTP 200 and a bundle
descriptor whose contents list is empty. -/
def netEmptyBundle : Net :=
  fun _ => HttpOutcome.status 200 (JVal.obj [("contents", JVal.arr [])])

/-- Counterexample to C3: a successfully fetched bundle descriptor with an
empty contents list yields `total_objects = 0`, violating
`total_objects ≥ 1`. -/
theorem get_drs_info_empty_bundle_cex :
    (get_drs_info cfgD netEmptyBundle "X" st0).map (fun p => p.1)
      = Except.ok (⟨true, false, 0, "", 0⟩ : DrsInfo)
    ∧ ¬ (1 ≤ (⟨true, false, 0, "", 0⟩ : DrsInfo).num_objects) :=
  ⟨rfl, by decide⟩

/-- C3 (amended): every result of `get_drs_info` satisfies
`offline_count ≤ total_objects`; a non-sentinel result that is not a
bundle has `total_objects = 1`, so `total_objects ≥ 1` can only fail for
bundles (namely those with an empty contents list). -/
theorem get_drs_info_counts (cfg : Config) (net : Net) (d : String) (st : St)
    (r : DrsInfo) (st' : St)
    (h : get_drs_info cfg net d st = Except.ok (r, st')) :
    r.num_offline ≤ r.num_objects
    ∧ (r ≠ unresolvedSentinel → r.is_bundle = false → r.num_objects = 1) := by
  cases hm : slookup st.drs_contents_cache d with
  | some j =>
    simp only [get_drs_info, hm] at h
    have hinv := classify_inv cfg net d j st r st' h
    exact ⟨hinv.1, fun _ => hinv.2⟩
  | none =>
    rcases hs : send_request_with_retry cfg net (objectsExpandUrl d) st with ⟨resp, st1⟩
    simp only [get_drs_info, hm, hs] at h
    cases resp with
    | none =>
      simp only [Except.ok.injEq, Prod.mk.injEq] at h
      obtain ⟨hr, _⟩ := h
      subst hr
      exact ⟨Nat.le_refl 0, fun hne => absurd rfl hne⟩
    | some j =>
      have hinv := classify_inv cfg net d j (cacheDrs d j st1) r st' h
      exact ⟨hinv.1, fun _ => hinv.2⟩

/-- Witness for the amended C3 at the empty-bundle input. -/
theorem get_drs_info_counts_witness :
    (⟨true, false, 0, "", 0⟩ : DrsInfo).num_offline
        ≤ (⟨true, false, 0, "", 0⟩ : DrsInfo).num_objects
    ∧ ((⟨true, false, 0, "", 0⟩ : DrsInfo) ≠ unresolvedSentinel →
        (⟨true, false, 0, "", 0⟩ : DrsInfo).is_bundle = false →
        (⟨true, false, 0, "", 0⟩ : DrsInfo).num_objects = 1) :=
  get_drs_info_counts cfgD netEmptyBundle "X" st0 ⟨true, false, 0, "", 0⟩
    (cacheDrs "X" (JVal.obj [("contents", JVal.arr [])])
      (logReq (objectsExpandUrl "X") st0)) rfl

/-- C5: for a cached (successfully fetched) descriptor: a bundle with
children `ids` whose probes verdict via `v`, `get_drs_info` returns
`offline_count = K`, `total_objects = N` and `is_online = (K < N)` where
`N` is the child count and `K` the number of offline children; a blob with
probe verdict `b` yields `total_objects = 1`, `offline_count = 0` iff the
probe succeeds, and `is_online = b = (offline_count == 0)`. -/
theorem get_drs_info_aggregation (cfg : Config) (net : Net) (d : String)
    (st : St) (j : JVal) :
    (∀ (cs : List JVal) (ids : List String) (v : String → Bool),
      slookup st.drs_contents_cache d = some j →
      j.getField "contents" = some (JVal.arr cs) →
      cs.map (fun c => c.getField "id") = ids.map (fun i => some (JVal.str i)) →
      (∀ i ∈ ids, slookup st.blob_status_cache i = some (v i)) →
      get_drs_info cfg net d st
        = Except.ok (⟨true, decide (ids.countP (fun i => !(v i)) < ids.length),
            ids.countP (fun i => !(v i)), jname j, ids.length⟩, st))
    ∧ (∀ b : Bool,
      slookup st.drs_contents_cache d = some j →
      j.getField "contents" = none →
      slookup st.blob_status_cache d = some b →
      get_drs_info cfg net d st
        = Except.ok (⟨false, b, if b then 0 else 1, jname j, 1⟩, st)) := by
  constructor
  · intro cs ids v hm hc hmap hcached
    have hlen : cs.length = ids.length := by
      simpa using congrArg List.length hmap
    have hcnt := count_offline_cached cs ids v cfg net st hmap hcached
    simp only [get_drs_info, hm, classify, hc, hcnt, hlen]
  · intro b hm hc hcb
    have hb : is_blob_online cfg net d st = (b, st) := by
      simp [is_blob_online, hcb]
    simp only [get_drs_info, hm, classify, hc, hb]
    cases b <;> simp

/-- Bundle fixture for the C5 witness: three children `a`, `b`, `c`. -/
def jBundle : JVal := JVal.obj [("name", JVal.str "B"),
  ("contents", JVal.arr [JVal.obj [("id", JVal.str "a")],
    JVal.obj [("id", JVal.str "b")], JVal.obj [("id", JVal.str "c")]])]

/-- Blob fixture for the C5 witness. -/
def jBlobA : JVal := JVal.obj [("name", JVal.str "A")]

/-- State as left by a classifier pass over both fixtures: descriptors
cached, child verdicts cached (`b` offline, the rest online). -/
def stW : St := ⟨[("a", true), ("b", false), ("c", true), ("A", true)],
  [("D", jBundle), ("A", jBlobA)], []⟩

/-- Witness for C5: the three-child bundle with one offline child yields
`(true, true, 1, "B", 3)`; the online blob yields `(false, true, 0, "A", 1)`. -/
theorem get_drs_info_aggregation_witness :
    get_drs_info cfgD (fun _ => HttpOutcome.exn) "D" stW
      = Except.ok (⟨true, true, 1, "B", 3⟩, stW)
    ∧ get_drs_info cfgD (fun _ => HttpOutcome.exn) "A" stW
      = Except.ok (⟨false, true, 0, "A", 1⟩, stW) := by
  constructor
  · exact (get_drs_info_aggregation cfgD (fun _ => HttpOutcome.exn) "D" stW jBundle).1
      [JVal.obj [("id", JVal.str "a")], JVal.obj [("id", JVal.str "b")],
        JVal.obj [("id", JVal.str "c")]]
      ["a", "b", "c"] (fun i => if i = "b" then false else true)
      rfl rfl rfl (by decide)
  · exact (get_drs_info_aggregation cfgD (fun _ => HttpOutcome.exn) "A" stW jBlobA).2
      true rfl rfl rfl

/-- Standalone-blob descriptor whose `"id"` field (`"Y"`) differs from the
id it is cached under (`"X"`). -/
def jC6 : JVal := JVal.obj [("id", JVal.str "Y")]

/-- Transport answering every request with HTTP 200 and `jC6`. -/
def netC6 : Net := fun _ => HttpOutcome.status 200 jC6

/-- State left by the classifier pass `get_drs_info "X"` over `netC6`:
descriptor cached under `"X"`, verdict cached for `"X"` only, two requests
issued. -/
def stC6 : St := cacheBlob "X" true (logReq (objectsUrl "X")
  (cacheDrs "X" jC6 (logReq (objectsExpandUrl "X") st0)))

/-- Counterexample to C6: starting from the exact state the classifier
pass leaves behind (descriptor for `"X"` in the Object Cache, so the
stated precondition holds), `process_online_blobs` issues a third HTTP
request, because the standalone-blob branch probes the descriptor's
`"id"` field `"Y"`, which the classifier never probed. -/
theorem process_online_blobs_probe_cex :
    get_drs_info cfgD netC6 "X" st0 = Except.ok (⟨false, true, 0, "", 1⟩, stC6)
    ∧ slookup stC6.drs_contents_cache "X" = some jC6
    ∧ stC6.reqLog.length = 2
    ∧ (process_online_blobs cfgD netC6 "X" "nm" stC6).map (fun p => p.2.reqLog.length)
        = Except.ok 3 :=
  ⟨rfl, rfl, rfl, rfl⟩

/-- C6 (amended): `process_online_blobs` issues no requests and leaves the
state untouched whenever every blob id it checks already has a cached
verdict — which the classifier pass guarantees for bundles, but not for a
standalone blob whose descriptor `"id"` differs from `drs_id`; and with
the descriptor absent from the Object Cache it returns the empty
sequence unchanged. -/
theorem process_online_blobs_no_network_when_cached :
    (∀ (cfg : Config) (net : Net) (d nm : String) (st : St),
      slookup st.drs_contents_cache d = none →
      process_online_blobs cfg net d nm st = Except.ok ([], st))
    ∧ (∀ (cfg : Config) (net : Net) (d nm : String) (st : St) (j : JVal)
        (cs : List JVal),
      slookup st.drs_contents_cache d = some j →
      j.getField "contents" = some (JVal.arr cs) →
      (∀ c ∈ cs, c.getField "contents" = none →
        ∃ i, c.getField "id" = some (JVal.str i)
          ∧ (∃ v, slookup st.blob_status_cache i = some v)
          ∧ (c.getField "name" = none ∨ ∃ s, c.getField "name" = some (JVal.str s))) →
      ∃ l, process_online_blobs cfg net d nm st = Except.ok (l, st))
    ∧ (∀ (cfg : Config) (net : Net) (d nm : String) (st : St) (j : JVal)
        (i : String) (v : Bool),
      slookup st.drs_contents_cache d = some j →
      j.getField "contents" = none →
      j.getField "id" = some (JVal.str i) →
      slookup st.blob_status_cache i = some v →
      (j.getField "name" = none ∨ ∃ s, j.getField "name" = some (JVal.str s)) →
      ∃ l, process_online_blobs cfg net d nm st = Except.ok (l, st)) := by
  refine ⟨?_, ?_, ?_⟩
  · intro cfg net d nm st hmiss
    simp only [process_online_blobs, hmiss]
  · intro cfg net d nm st j cs hm hc hcs
    obtain ⟨l, hl⟩ := pobLoop_cached cs cfg net nm st hcs
    exact ⟨l, by simp only [process_online_blobs, hm, hc, hl]⟩
  · intro cfg net d nm st j i v hm hc hid hcb hname
    have hb : is_blob_online cfg net i st = (v, st) := by
      simp [is_blob_online, hcb]
    cases hvv : v with
    | false =>
      refine ⟨[], ?_⟩
      rw [hvv] at hb
      simp only [process_online_blobs, hm, hc, hid, hb,
        if_neg (by simp : ¬ (false = true))]
    | true =>
      rw [hvv] at hb
      rcases hname with hn | ⟨s, hn⟩
      · refine ⟨[(i, blobUri i,
          if cfg.flatten_structure then
            "DRS_Import/" ++ determine_modified_name i
          else determine_modified_name i)], ?_⟩
        simp only [process_online_blobs, hm, hc, hid, hb, if_pos rfl, jnameOr, hn,
          if_true]
      · refine ⟨[(i, blobUri i,
          if cfg.flatten_structure then
            "DRS_Import/" ++ determine_modified_name s
          else determine_modified_name s)], ?_⟩
        simp only [process_online_blobs, hm, hc, hid, hb, if_pos rfl, jnameOr, hn,
          if_true]

/-- Witness for the amended C6: on the classifier-populated bundle state
`stW`, the extractor succeeds and leaves the state (hence the request log)
unchanged. -/
theorem process_online_blobs_no_network_when_cached_witness :
    ∃ l, process_online_blobs cfgD (fun _ => HttpOutcome.exn) "D" "B" stW
      = Except.ok (l, stW) := by
  refine (process_online_blobs_no_network_when_cached).2.1 cfgD
    (fun _ => HttpOutcome.exn) "D" "B" stW jBundle
    [JVal.obj [("id", JVal.str "a")], JVal.obj [("id", JVal.str "b")],
      JVal.obj [("id", JVal.str "c")]]
    rfl rfl ?_
  intro c hc _
  simp only [List.mem_cons, List.not_mem_nil, or_false] at hc
  rcases hc with rfl | rfl | rfl
  · exact ⟨"a", rfl, ⟨true, rfl⟩, Or.inl rfl⟩
  · exact ⟨"b", rfl, ⟨false, rfl⟩, Or.inl rfl⟩
  · exact ⟨"c", rfl, ⟨true, rfl⟩, Or.inl rfl⟩

/-- Counterexample to C7: when the metadata fetch fails (here: the
transport always raises), nothing is cached, so a second `get_drs_info`
call for the same id fetches again — six requests in total for that id,
not one. -/
theorem get_drs_info_twice_cex :
    (get_drs_info cfgD (fun _ => HttpOutcome.exn) "X" st0).bind
        (fun p => get_drs_info cfgD (fun _ => HttpOutcome.exn) "X" p.2)
      = Except.ok (unresolvedSentinel, pushN (objectsExpandUrl "X") 6 st0)
    ∧ (pushN (objectsExpandUrl "X") 6 st0).reqLog.length = 6 :=
  ⟨rfl, rfl⟩

/-- C7 (amended): a second `is_blob_online` call for the same blob id
returns the cached verdict and the unchanged state (one probe in total,
whatever the first verdict was); a second `get_drs_info` call for the same
id is served entirely from the caches — returning the same tuple and the
unchanged state — provided the first call's fetch succeeded (a failed
fetch is not cached and is retried by the second call). -/
theorem caching_idempotence :
    (∀ (cfg : Config) (net : Net) (blob_id : String) (st : St) (v : Bool) (st' : St),
      is_blob_online cfg net blob_id st = (v, st') →
      is_blob_online cfg net blob_id st' = (v, st'))
    ∧ (∀ (cfg : Config) (net : Net) (drs_id : String) (st : St) (r : DrsInfo) (st' : St),
      slookup st.drs_contents_cache drs_id = none →
      get_drs_info cfg net drs_id st = Except.ok (r, st') →
      r ≠ unresolvedSentinel →
      get_drs_info cfg net drs_id st' = Except.ok (r, st')) := by
  constructor
  · intro cfg net i st v st' h
    exact (is_blob_online_rerun cfg net i st v st' h).2.1
  · intro cfg net d st r st' hmiss h hr
    rcases hs : send_request_with_retry cfg net (objectsExpandUrl d) st with ⟨resp, st1⟩
    simp only [get_drs_info, hmiss, hs] at h
    cases resp with
    | none =>
      simp only [Except.ok.injEq, Prod.mk.injEq] at h
      exact absurd h.1.symm hr
    | some j =>
      obtain ⟨hmono, hdrs, hrerun⟩ :=
        classify_rerun cfg net d j (cacheDrs d j st1) r st' h
      have hl : slookup st'.drs_contents_cache d = some j := by
        rw [hdrs]; simp [cacheDrs, slookup]
      simp only [get_drs_info, hl, hrerun]

/-- State after one full `get_drs_info "Z"` call over `netBlobOk`. -/
def stZ : St := cacheBlob "Z" true (logReq (objectsUrl "Z")
  (cacheDrs "Z" (JVal.obj [("name", JVal.str "n")]) (logReq (objectsExpandUrl "Z") st0)))

/-- Witness for the amended C7: a probed blob's second check and a
successfully fetched id's second lookup both return the cached result with
no state change. -/
theorem caching_idempotence_witness :
    is_blob_online cfgD netBlobOk "b"
        (cacheBlob "b" true (logReq (objectsUrl "b") st0))
      = (true, cacheBlob "b" true (logReq (objectsUrl "b") st0))
    ∧ get_drs_info cfgD netBlobOk "Z" stZ
      = Except.ok (⟨false, true, 0, "n", 1⟩, stZ) :=
  ⟨caching_idempotence.1 cfgD netBlobOk "b" st0 true
      (cacheBlob "b" true (logReq (objectsUrl "b") st0)) rfl,
    caching_idempotence.2 cfgD netBlobOk "Z" st0 ⟨false, true, 0, "n", 1⟩ stZ
      rfl rfl (by decide)⟩

/-- C10: in the standalone-blob branch, `process_online_blobs` takes the
emitted blob id from the cached descriptor's `"id"` field via unguarded
indexing, not from its `drs_id` argument: a cached standalone-blob
descriptor without an `"id"` field makes the call raise (`KeyError`) even
though the descriptor-in-cache precondition holds, and when the field is
present its value — not `drs_id` — is the emitted blob id. -/
theorem process_online_blobs_standalone_id (cfg : Config) (net : Net)
    (d nm : String) (st : St) (j : JVal) :
    (slookup st.drs_contents_cache d = some j →
      j.getField "contents" = none →
      j.getField "id" = none →
      process_online_blobs cfg net d nm st = Except.error "KeyError: id")
    ∧ (∀ i, slookup st.drs_contents_cache d = some j →
      j.getField "contents" = none →
      j.getField "id" = some (JVal.str i) →
      slookup st.blob_status_cache i = some true →
      (j.getField "name" = none ∨ ∃ s, j.getField "name" = some (JVal.str s)) →
      (process_online_blobs cfg net d nm st).map (fun p => p.1.map (fun b => b.1))
        = Except.ok [i]) := by
  constructor
  · intro hm hc hid
    simp only [process_online_blobs, hm, hc, hid]
  · intro i hm hc hid hcb hname
    have hb : is_blob_online cfg net i st = (true, st) := by
      simp [is_blob_online, hcb]
    rcases hname with hn | ⟨s, hn⟩ <;>
      simp only [process_online_blobs, hm, hc, hid, hb, if_pos rfl, jnameOr, hn,
        if_true, Except.map, List.map]

/-- Fixture for the C10 witness: a standalone-blob descriptor with a name
but no `"id"` field. -/
def jNoId : JVal := JVal.obj [("name", JVal.str "w")]

/-- Witness for C10: with `jNoId` cached under `"X"` the extractor raises
`KeyError`; with `jC6` (id field `"Y"`) cached under `"X"` and `"Y"`
probing online, the emitted blob id is `"Y"`, not `"X"`. -/
theorem process_online_blobs_standalone_id_witness :
    process_online_blobs cfgD (fun _ => HttpOutcome.exn) "X" "nm"
        ⟨[], [("X", jNoId)], []⟩ = Except.error "KeyError: id"
    ∧ (process_online_blobs cfgD (fun _ => HttpOutcome.exn) "X" "nm"
        ⟨[("Y", true)], [("X", jC6)], []⟩).map (fun p => p.1.map (fun b => b.1))
      = Except.ok ["Y"] :=
  ⟨(process_online_blobs_standalone_id cfgD (fun _ => HttpOutcome.exn) "X" "nm"
      ⟨[], [("X", jNoId)], []⟩ jNoId).1 rfl rfl rfl,
    (process_online_blobs_standalone_id cfgD (fun _ => HttpOutcome.exn) "X" "nm"
      ⟨[("Y", true)], [("X", jC6)], []⟩ jC6).2 "Y" rfl rfl rfl rfl (Or.inl rfl)⟩

/-- C1 (code bug): a run whose first row is not online aborts.  With a
transport that always raises, the single row resolves to `("", "")`, the
classifier returns the unresolved sentinel (`is_online = false`), and the
loop then reads the local `online_blobs` (main.py line 242), which was
only ever assigned inside `if is_online:` — an `UnboundLocalError` that
aborts the run instead of the promised completed run with sentinel
values. -/
theorem run_aborts_when_first_row_not_online :
    run cfgD (fun _ => HttpOutcome.exn) ["SRR000001"] st0
      = Except.error "UnboundLocalError: online_blobs" :=
  rfl

end Processor
